import Mathlib

/-!
# Entity-component registry of `Architecture.cpp`

A shallow embedding of the classes `Component`, `TransformComponent<Type>`,
`Components` and `GameObjectBase`, followed by theorems about them.

Modelling conventions.

* A `std::shared_ptr<Component>` is an `Option Component`: `none` is the null
  pointer, `some c` points to the object `c`.  The fields of a `Component` are
  written once, in the constructor, so the pointee is carried with the pointer;
  the field `addr` stands for the identity (address) of the object, so that two
  objects with equal members are still told apart.
* A `const GameObjectBase&` is the identity of the game object, a number.
* `std::unordered_map<size_t, std::shared_ptr<Component>>` is a list of
  entries; `find`, `emplace`, `erase` and `clear` follow the contract of the
  standard container.  The order of the list is not observable through them.
* `assert` of `<cassert>` depends on the build: with `NDEBUG` defined it is
  empty, without it a false condition aborts the process.  The build is the
  parameter `ndebug`, and a call that can reach an `assert` has its result in
  `Option`, with `none` for the abort.
* `std::hash<uint32_t>` is the standard library's; it is the parameter
  `std_hash` wherever the code calls it, and `std_hash_identity` is the one
  of libstdc++ and libc++.
* A `float` is the number it represents; the code stores and returns floats
  and never computes with them.
* Several game objects are a function from identities to objects (`World`);
  a call changes the object it is made on and no other.
* The lifetime of a component follows `std::shared_ptr`: the object is alive
  while its use count, the number of `shared_ptr` instances that point to it,
  is positive; a `std::weak_ptr` to it is expired when the count is zero.
-/

namespace Architecture

/-! ## Kind tags -/

/-- The enumeration `component_type_e`. It is unscoped and has no fixed
underlying type, and its only enumerator is `Transform = 0x0A`: its values are
those of a bit-field of four bits, 0 to 15, and each of them can be given to
the constructor of `Component` and to the template `TransformComponent<Type>`. -/
structure component_type_e where
  val : Fin 16
  deriving DecidableEq, Repr

/-- The enumerator `Transform = 0x0A`. -/
def component_type_e.Transform : component_type_e :=
  { val := 10 }

/-- The number a value of the enumeration stands for. -/
def component_type_e.toNat (type : component_type_e) : Nat :=
  type.val.val

/-- The conversion `static_cast<uint32_t>(type)`. -/
def static_cast_uint32 (type : component_type_e) : Nat :=
  type.toNat % 2 ^ 32

/-! ## Components -/

/-- An object of class `Component`: its members, and the address `addr` at
which the object lives. -/
structure Component where
  addr : Nat
  m_parent : Nat
  m_type : component_type_e
  m_hash : Nat
  deriving DecidableEq, Repr

/-- The constructor `Component(type, parent)`, building the object at `addr`. -/
def Component.ctor (std_hash : Nat → Nat) (addr : Nat) (type : component_type_e)
    (parent : Nat) : Component :=
  { addr := addr
    m_parent := parent
    m_type := type
    m_hash := std_hash (static_cast_uint32 type) }

/-- The member function `Component::GetHash`. -/
def Component.GetHash (self : Component) : Nat :=
  self.m_hash

/-- The member function `Component::GetParent`. -/
def Component.GetParent (self : Component) : Nat :=
  self.m_parent

/-- The static member function `TransformComponent<Type>::GetHash`. -/
def TransformComponent.GetHash (std_hash : Nat → Nat) (type : component_type_e) : Nat :=
  std_hash (static_cast_uint32 type)

/-- A `std::shared_ptr<Component>`; `none` is the null pointer. -/
abbrev shared_ptr := Option Component

/-- The null pointer. -/
def nullptr : shared_ptr := none

/-- The contextual conversion of a pointer to `bool`. -/
def shared_ptr.operator_bool (p : shared_ptr) : Bool :=
  p.isSome

/-! ## The container -/

/-- A `std::unordered_map<size_t, std::shared_ptr<Component>>`, as its entries. -/
abbrev unordered_map := List (Nat × shared_ptr)

/-- The call `m.find(key)`: the entry with that key, `none` for `end()`. -/
def unordered_map.find (m : unordered_map) (key : Nat) : Option (Nat × shared_ptr) :=
  List.find? (fun e => e.1 == key) m

/-- The call `m.emplace(key, value)`: inserts unless the key is present; the
second component tells whether the insertion took place. -/
def unordered_map.emplace (m : unordered_map) (key : Nat) (value : shared_ptr) :
    unordered_map × Bool :=
  match unordered_map.find m key with
  | some _ => (m, false)
  | none => ((key, value) :: m, true)

/-- The call `m.erase(key)`: removes the entries with that key and returns how
many there were. -/
def unordered_map.erase (m : unordered_map) (key : Nat) : unordered_map × Nat :=
  (List.filter (fun e => e.1 != key) m, List.countP (fun e => e.1 == key) m)

/-- The call `m.clear()`. -/
def unordered_map.clear (_m : unordered_map) : unordered_map :=
  []

/-! ## Assertions -/

/-- The macro `assert(cond)`: `some ()` when execution continues, `none` when
the process aborts. -/
def cassert (ndebug : Bool) (cond : Bool) : Option Unit :=
  if ndebug || cond then some () else none

/-! ## The store -/

/-- An object of class `Components`. A newly constructed one has no entries. -/
structure Components where
  m_components : unordered_map := []
  deriving DecidableEq, Repr

namespace Components

/-- The member function `Components::TryAddComponent`: the returned `bool` and
the store after the call. -/
def TryAddComponent (ndebug : Bool) (self : Components) (component : shared_ptr) :
    Option (Bool × Components) :=
  match component with
  | none =>
    (cassert ndebug (shared_ptr.operator_bool nullptr && true)).bind fun _ =>
      some (false, self)
  | some c =>
    let hash := c.GetHash
    let result := unordered_map.emplace self.m_components hash (some c)
    some (result.2, { m_components := result.1 })

/-- The member function `Components::TryDeleteComponent`. -/
def TryDeleteComponent (self : Components) (hash : Nat) : Bool × Components :=
  let r := unordered_map.erase self.m_components hash
  (decide (r.2 > 0), { m_components := r.1 })

/-- The member function `Components::RemoveAllComponents`. -/
def RemoveAllComponents (self : Components) : Components :=
  { m_components := unordered_map.clear self.m_components }

/-- The member function `Components::operator[]`. -/
def operatorIndex (self : Components) (hash : Nat) : shared_ptr :=
  match unordered_map.find self.m_components hash with
  | some it => it.2
  | none => nullptr

/-- Whether the map has an entry under the key `hash`. -/
def hasKey (self : Components) (hash : Nat) : Bool :=
  (unordered_map.find self.m_components hash).isSome

/-- The number of components held by the store whose `GetHash()` is `hash`. -/
def countHash (self : Components) (hash : Nat) : Nat :=
  List.countP
    (fun e => match e.2 with
      | some c => c.GetHash == hash
      | none => false)
    self.m_components

end Components

/-! ## The game object -/

/-- An object of class `GameObjectBase`. -/
structure GameObjectBase where
  m_components : Components := {}
  deriving DecidableEq, Repr

namespace GameObjectBase

/-- The member function `GameObjectBase::TryAddComponent`. -/
def TryAddComponent (ndebug : Bool) (self : GameObjectBase) (component : shared_ptr) :
    Option (Bool × GameObjectBase) :=
  (cassert ndebug (shared_ptr.operator_bool component && true)).bind fun _ =>
    (self.m_components.TryAddComponent ndebug component).bind fun r =>
      some (r.1, { m_components := r.2 })

/-- The member function `GameObjectBase::TryGetComponent`. -/
def TryGetComponent (self : GameObjectBase) (hash : Nat) : shared_ptr :=
  self.m_components.operatorIndex hash

/-- The member function `GameObjectBase::TryDeleteComponent`. -/
def TryDeleteComponent (self : GameObjectBase) (hash : Nat) : Bool × GameObjectBase :=
  let r := self.m_components.TryDeleteComponent hash
  (r.1, { m_components := r.2 })

/-- The member function `GameObjectBase::Destroy`. -/
def Destroy (self : GameObjectBase) : GameObjectBase :=
  { m_components := self.m_components.RemoveAllComponents }

end GameObjectBase

/-! ## Sequences of calls -/

/-- What a call returns: a `bool`, a pointer, or nothing (`void`). -/
inductive Result where
  | bool (b : Bool)
  | ptr (p : shared_ptr)
  | void
  deriving DecidableEq, Repr

/-- A call on a store. -/
inductive StoreOp where
  | TryAddComponent (component : shared_ptr)
  | TryDeleteComponent (hash : Nat)
  | RemoveAllComponents
  | operatorIndex (hash : Nat)
  deriving DecidableEq, Repr

/-- One call on a store: what it returns and the store afterwards. -/
def Components.step (ndebug : Bool) (s : Components) : StoreOp → Option (Result × Components)
  | .TryAddComponent c => (s.TryAddComponent ndebug c).map fun r => (Result.bool r.1, r.2)
  | .TryDeleteComponent h => some (Result.bool (s.TryDeleteComponent h).1, (s.TryDeleteComponent h).2)
  | .RemoveAllComponents => some (Result.void, s.RemoveAllComponents)
  | .operatorIndex h => some (Result.ptr (s.operatorIndex h), s)

/-- A sequence of calls on a store, in order: the results and the final store;
`none` when one of the calls aborts. -/
def Components.run (ndebug : Bool) (s : Components) : List StoreOp → Option (List Result × Components)
  | [] => some ([], s)
  | op :: ops =>
    (s.step ndebug op).bind fun r =>
      (Components.run ndebug r.2 ops).map fun rs => (r.1 :: rs.1, rs.2)

/-- A call on a game object. -/
inductive EntityOp where
  | TryAddComponent (component : shared_ptr)
  | TryGetComponent (hash : Nat)
  | TryDeleteComponent (hash : Nat)
  | Destroy
  deriving DecidableEq, Repr

/-- One call on a game object: what it returns and the object afterwards. -/
def GameObjectBase.step (ndebug : Bool) (e : GameObjectBase) :
    EntityOp → Option (Result × GameObjectBase)
  | .TryAddComponent c => (e.TryAddComponent ndebug c).map fun r => (Result.bool r.1, r.2)
  | .TryGetComponent h => some (Result.ptr (e.TryGetComponent h), e)
  | .TryDeleteComponent h => some (Result.bool (e.TryDeleteComponent h).1, (e.TryDeleteComponent h).2)
  | .Destroy => some (Result.void, e.Destroy)

/-- A sequence of calls on a game object, in order. -/
def GameObjectBase.run (ndebug : Bool) (e : GameObjectBase) :
    List EntityOp → Option (List Result × GameObjectBase)
  | [] => some ([], e)
  | op :: ops =>
    (e.step ndebug op).bind fun r =>
      (GameObjectBase.run ndebug r.2 ops).map fun rs => (r.1 :: rs.1, rs.2)

/-- Whether a store call is allowed after a component was added under `hash`
without ending its stay: anything but `TryDeleteComponent(hash)` and
`RemoveAllComponents`. -/
def StoreOp.keeps (hash : Nat) : StoreOp → Bool
  | .TryAddComponent _ => true
  | .TryDeleteComponent h => h != hash
  | .RemoveAllComponents => false
  | .operatorIndex _ => true

/-- A store is reachable when some finite sequence of calls leads to it from a
newly constructed store. -/
def Components.Reachable (s : Components) : Prop :=
  ∃ (ndebug : Bool) (ops : List StoreOp) (rs : List Result),
    Components.run ndebug {} ops = some (rs, s)

/-- The invariant of the map of a store: no key occurs twice, and every entry
holds a non-null component filed under its own `GetHash()`. -/
def Components.WF (s : Components) : Prop :=
  (s.m_components.map Prod.fst).Nodup ∧
    ∀ e ∈ s.m_components, ∃ c : Component, e.2 = some c ∧ c.GetHash = e.1

/-! ## Transform components -/

/-- A `float`, by the number it represents; the classes below only store and
return such values. -/
abbrev float := Rat

/-- An object of class `Vector3f`. -/
structure Vector3f where
  m_x : float
  m_y : float
  m_z : float
  deriving DecidableEq, Repr

/-- The default constructor `Vector3f()`. -/
def Vector3f.ctor : Vector3f :=
  { m_x := 0, m_y := 0, m_z := 0 }

/-- An object of class `Quaternion`. -/
structure Quaternion where
  m_x : float
  m_y : float
  m_z : float
  deriving DecidableEq, Repr

/-- The default constructor `Quaternion()`. -/
def Quaternion.ctor : Quaternion :=
  { m_x := 0, m_y := 0, m_z := 0 }

/-- An object of class `TransformComponent<Type>`: the `Component` base and the
members of the derived class. -/
structure TransformComponent extends Component where
  m_position : Vector3f
  m_rotation : Quaternion
  m_scale : Vector3f
  deriving DecidableEq, Repr

/-- The constructor `TransformComponent<Type>(base)`, building the object at
`addr`; the three members are default-constructed. -/
def TransformComponent.ctor (std_hash : Nat → Nat) (addr : Nat) (type : component_type_e)
    (base : Nat) : TransformComponent :=
  { toComponent := Component.ctor std_hash addr type base
    m_position := Vector3f.ctor
    m_rotation := Quaternion.ctor
    m_scale := Vector3f.ctor }

/-- The member function `TransformComponent<Type>::position`. -/
def TransformComponent.position (self : TransformComponent) : Vector3f :=
  self.m_position

/-- The conversion of a `TransformComponent` pointer to a pointer to its
`Component` base, as at the call `TryAddComponent(transformComponent)`. -/
def TransformComponent.upcast (self : TransformComponent) : shared_ptr :=
  some self.toComponent

/-- The conversion `std::static_pointer_cast<TransformComponent<Type>>(p)`:
the transform object that lives at the address `p` points to, looked up among
the transform objects `heap` of the program; null stays null. -/
def static_pointer_cast (heap : List TransformComponent) (p : shared_ptr) :
    Option TransformComponent :=
  p.bind fun c => List.find? (fun t => t.addr == c.addr) heap

/-! ## Several game objects -/

/-- The game objects of a program, by identity. -/
abbrev World := Nat → GameObjectBase

/-- The program in which every game object is newly constructed. -/
def World.fresh : World :=
  fun _ => {}

/-- A call on the game object with identity `entity`. -/
structure WorldOp where
  entity : Nat
  op : EntityOp
  deriving DecidableEq, Repr

/-- One call in a program: only the game object called changes. -/
def World.step (ndebug : Bool) (w : World) (o : WorldOp) : Option (Result × World) :=
  ((w o.entity).step ndebug o.op).map fun r =>
    (r.1, fun E => if E = o.entity then r.2 else w E)

/-- A sequence of calls in a program, in order. -/
def World.run (ndebug : Bool) (w : World) : List WorldOp → Option (List Result × World)
  | [] => some ([], w)
  | o :: os =>
    (w.step ndebug o).bind fun r =>
      (World.run ndebug r.2 os).map fun rs => (r.1 :: rs.1, rs.2)

/-- Whether the store of a game object has an entry that points to `c`. -/
def GameObjectBase.holds (e : GameObjectBase) (c : Component) : Bool :=
  List.any e.m_components.m_components (fun en => en.2 == some c)

/-- The number of entries of the store of a game object that point to `c`. -/
def GameObjectBase.countHeld (e : GameObjectBase) (c : Component) : Nat :=
  List.countP (fun en => en.2 == some c) e.m_components.m_components

/-- Whether a call passes to `TryAddComponent` only a component constructed
with the game object called as its parent. -/
def WorldOp.ownParent (o : WorldOp) : Bool :=
  match o.op with
  | .TryAddComponent (some c) => c.GetParent == o.entity
  | _ => true

/-- The store call behind a game-object call. -/
def EntityOp.toStoreOp : EntityOp → StoreOp
  | .TryAddComponent c => StoreOp.TryAddComponent c
  | .TryGetComponent h => StoreOp.operatorIndex h
  | .TryDeleteComponent h => StoreOp.TryDeleteComponent h
  | .Destroy => StoreOp.RemoveAllComponents

/-- A game object is reachable when some finite sequence of calls leads to it
from a newly constructed one. -/
def GameObjectBase.Reachable (e : GameObjectBase) : Prop :=
  ∃ (ndebug : Bool) (ops : List EntityOp) (rs : List Result),
    GameObjectBase.run ndebug {} ops = some (rs, e)

/-- A program state is reachable when some finite sequence of calls leads to
it from the program of newly constructed game objects. -/
def World.Reachable (w : World) : Prop :=
  ∃ (ndebug : Bool) (ops : List WorldOp) (rs : List Result),
    World.run ndebug World.fresh ops = some (rs, w)

/-! ## Ownership -/

/-- The `use_count()` of the object `c`: the `shared_ptr` instances that point
to it, those outside the store of the game object (`outside`: variables of the
caller, other containers) and the entries of the store. -/
def use_count (outside : List shared_ptr) (e : GameObjectBase) (c : Component) : Nat :=
  List.count (some c) outside + e.countHeld c

/-- The call `r.expired()` on a `std::weak_ptr` to the object `c`. -/
def weak_ptr_expired (outside : List shared_ptr) (e : GameObjectBase) (c : Component) : Bool :=
  use_count outside e c == 0

/-- The call `r.lock()` on a `std::weak_ptr` to the object `c`. -/
def weak_ptr_lock (outside : List shared_ptr) (e : GameObjectBase) (c : Component) : shared_ptr :=
  if weak_ptr_expired outside e c then nullptr else some c

/-! ## Objects used in the worked instances -/

/-- A transform component at address 1, hosted by game object 0, with the
identifier 10. -/
def demoFirst : Component :=
  { addr := 1, m_parent := 0, m_type := component_type_e.Transform, m_hash := 10 }

/-- A second transform component, at address 2, with the same identifier. -/
def demoSecond : Component :=
  { addr := 2, m_parent := 0, m_type := component_type_e.Transform, m_hash := 10 }

/-- A component at address 3 with the identifier 11. -/
def demoOther : Component :=
  { addr := 3, m_parent := 0, m_type := component_type_e.Transform, m_hash := 11 }

/-- The store that holds `demoFirst` and nothing else. -/
def demoStore : Components :=
  { m_components := [(10, some demoFirst)] }

/-- The `std::hash<uint32_t>` of libstdc++ and of libc++: the value itself. -/
def std_hash_identity (value : Nat) : Nat :=
  value

/-- A kind tag other than `Transform`: the value 11 of the enumeration. -/
def demoTag : component_type_e :=
  { val := 11 }

/-- A transform object whose base is `demoFirst` and whose position is
(1, 2, 3). -/
def demoPlaced : TransformComponent :=
  { toComponent := demoFirst
    m_position := { m_x := 1, m_y := 2, m_z := 3 }
    m_rotation := Quaternion.ctor
    m_scale := Vector3f.ctor }

/-- The transform component of `main`, at address 1, for the game object 0,
with the identity as `std::hash`. -/
def demoTransform : TransformComponent :=
  TransformComponent.ctor id 1 component_type_e.Transform 0

/-! ## Lemmas on the container -/

theorem unordered_map.find_eq_none_iff (m : unordered_map) (key : Nat) :
    unordered_map.find m key = none ↔ ∀ e ∈ m, e.1 ≠ key := by
  simp [unordered_map.find, List.find?_eq_none]

theorem unordered_map.find_key (m : unordered_map) (key : Nat) (it : Nat × shared_ptr)
    (h : unordered_map.find m key = some it) : it.1 = key ∧ it ∈ m := by
  unfold unordered_map.find at h
  have h1 := List.find?_some h
  have h2 := List.mem_of_find?_eq_some h
  exact ⟨by simpa using h1, h2⟩

theorem unordered_map.find_cons_self (m : unordered_map) (key : Nat) (v : shared_ptr) :
    unordered_map.find ((key, v) :: m) key = some (key, v) := by
  simp [unordered_map.find]

theorem unordered_map.find_cons_ne (m : unordered_map) (key k : Nat) (v : shared_ptr)
    (h : k ≠ key) : unordered_map.find ((k, v) :: m) key = unordered_map.find m key := by
  simp [unordered_map.find, List.find?_cons, h]

theorem unordered_map.find_filter_ne (m : unordered_map) (key k : Nat) (h : k ≠ key) :
    unordered_map.find (List.filter (fun e => e.1 != k) m) key = unordered_map.find m key := by
  unfold unordered_map.find
  induction m with
  | nil => rfl
  | cons e m ih =>
    rw [List.filter_cons]
    by_cases hk : e.1 = k
    · have hne : ¬ e.1 = key := fun hh => h (hk.symm.trans hh)
      have h1 : (e.1 != k) = false := by simp [hk]
      have h2 : (e.1 == key) = false := by simp [hne]
      rw [h1]
      simp only [Bool.false_eq_true, if_false]
      rw [List.find?_cons, h2]
      exact ih
    · have h1 : (e.1 != k) = true := by simp [hk]
      rw [h1]
      simp only [if_true]
      rw [List.find?_cons, List.find?_cons, ih]

theorem unordered_map.find_filter_self (m : unordered_map) (key : Nat) :
    unordered_map.find (List.filter (fun e => e.1 != key) m) key = none := by
  rw [unordered_map.find_eq_none_iff]
  intro e he
  have := (List.mem_filter.mp he).2
  simpa using this

theorem unordered_map.countP_pos_iff (m : unordered_map) (key : Nat) :
    List.countP (fun e => e.1 == key) m > 0 ↔ unordered_map.find m key ≠ none := by
  rw [Ne, unordered_map.find_eq_none_iff, gt_iff_lt, List.countP_pos_iff]
  constructor
  · rintro ⟨e, he, hk⟩ hall
    exact hall e he (by simpa using hk)
  · intro hn
    by_contra hc
    apply hn
    intro e he hk
    exact hc ⟨e, he, by simpa using hk⟩

theorem unordered_map.filter_eq_self (m : unordered_map) (key : Nat)
    (h : unordered_map.find m key = none) : List.filter (fun e => e.1 != key) m = m := by
  rw [unordered_map.find_eq_none_iff] at h
  rw [List.filter_eq_self]
  intro e he
  simpa using h e he

/-! ## Lemmas on the store -/

namespace Components

theorem TryAddComponent_some (ndebug : Bool) (s : Components) (c : Component) :
    s.TryAddComponent ndebug (some c) =
      some (!s.hasKey c.GetHash,
        if s.hasKey c.GetHash then s
        else { m_components := (c.GetHash, some c) :: s.m_components }) := by
  unfold TryAddComponent hasKey unordered_map.emplace
  cases h : unordered_map.find s.m_components c.GetHash <;> simp [h]

theorem TryAddComponent_null (ndebug : Bool) (s : Components) :
    s.TryAddComponent ndebug nullptr = if ndebug then some (false, s) else none := by
  cases ndebug <;> rfl

theorem operatorIndex_eq_nullptr_of_not_hasKey (s : Components) (hash : Nat)
    (h : s.hasKey hash = false) : s.operatorIndex hash = nullptr := by
  unfold hasKey at h
  unfold operatorIndex
  cases hf : unordered_map.find s.m_components hash with
  | none => rfl
  | some it => simp [hf] at h

theorem WF.hasKey_iff {s : Components} (hs : s.WF) (hash : Nat) :
    s.hasKey hash = false ↔ s.operatorIndex hash = nullptr := by
  refine ⟨operatorIndex_eq_nullptr_of_not_hasKey s hash, ?_⟩
  unfold hasKey operatorIndex
  cases hf : unordered_map.find s.m_components hash with
  | none => simp
  | some it =>
    obtain ⟨c, hc, -⟩ := hs.2 it (unordered_map.find_key _ _ _ hf).2
    simp [hc, nullptr]

theorem WF.empty : ({} : Components).WF := by
  simp [WF]

theorem WF.TryAddComponent {ndebug : Bool} {s s' : Components} {p : shared_ptr} {b : Bool}
    (hs : s.WF) (h : s.TryAddComponent ndebug p = some (b, s')) : s'.WF := by
  cases p with
  | none =>
    have h0 := TryAddComponent_null ndebug s
    simp only [nullptr] at h0
    rw [h0] at h
    cases ndebug <;> simp at h
    rw [← h.2]; exact hs
  | some c =>
    rw [TryAddComponent_some] at h
    simp only [Option.some.injEq, Prod.mk.injEq] at h
    obtain ⟨-, rfl⟩ := h
    by_cases hk : s.hasKey c.GetHash = true
    · simpa [hk] using hs
    · simp only [hk, Bool.false_eq_true, if_false]
      have hnone : unordered_map.find s.m_components c.GetHash = none := by
        simpa [hasKey] using hk
      rw [unordered_map.find_eq_none_iff] at hnone
      refine ⟨?_, ?_⟩
      · simp only [List.map_cons, List.nodup_cons]
        refine ⟨?_, hs.1⟩
        intro hmem
        obtain ⟨e, he, hke⟩ := List.mem_map.mp hmem
        exact hnone e he hke
      · intro e he
        rcases List.mem_cons.mp he with rfl | he
        · exact ⟨c, rfl, rfl⟩
        · exact hs.2 e he

theorem WF.TryDeleteComponent {s : Components} (hs : s.WF) (hash : Nat) :
    (s.TryDeleteComponent hash).2.WF := by
  refine ⟨?_, ?_⟩
  · exact hs.1.sublist (List.Sublist.map _ (List.filter_sublist _))
  · intro e he
    exact hs.2 e (List.mem_filter.mp he).1

theorem WF.RemoveAllComponents (s : Components) : s.RemoveAllComponents.WF := by
  simp [WF, Components.RemoveAllComponents, unordered_map.clear]

theorem WF.step {ndebug : Bool} {s s' : Components} {op : StoreOp} {r : Result}
    (hs : s.WF) (h : s.step ndebug op = some (r, s')) : s'.WF := by
  cases op with
  | TryAddComponent c =>
    simp only [Components.step, Option.map_eq_some'] at h
    obtain ⟨⟨b, t⟩, hadd, heq⟩ := h
    simp only [Prod.mk.injEq] at heq
    obtain ⟨-, rfl⟩ := heq
    exact hs.TryAddComponent hadd
  | TryDeleteComponent k =>
    simp only [Components.step, Option.some.injEq, Prod.mk.injEq] at h
    rw [← h.2]; exact hs.TryDeleteComponent k
  | RemoveAllComponents =>
    simp only [Components.step, Option.some.injEq, Prod.mk.injEq] at h
    rw [← h.2]; exact WF.RemoveAllComponents s
  | operatorIndex k =>
    simp only [Components.step, Option.some.injEq, Prod.mk.injEq] at h
    rw [← h.2]; exact hs

theorem WF.run {ndebug : Bool} (ops : List StoreOp) :
    ∀ {s s' : Components} {rs : List Result}, s.WF →
      Components.run ndebug s ops = some (rs, s') → s'.WF := by
  induction ops with
  | nil =>
    intro s s' rs hs h
    simp only [Components.run, Option.some.injEq, Prod.mk.injEq] at h
    rw [← h.2]; exact hs
  | cons op ops ih =>
    intro s s' rs hs h
    simp only [Components.run, Option.bind_eq_some, Option.map_eq_some'] at h
    obtain ⟨⟨r, t⟩, hstep, ⟨rs1, t1⟩, hrun, heq⟩ := h
    simp only [Prod.mk.injEq] at heq
    obtain ⟨-, rfl⟩ := heq
    exact ih (hs.step hstep) hrun

theorem Reachable.wf {s : Components} (h : s.Reachable) : s.WF := by
  obtain ⟨ndebug, ops, rs, hrun⟩ := h
  exact WF.run ops WF.empty hrun

end Components

/-! ## Lemmas on sequences of calls -/

namespace Components

theorem step_isSome (ndebug : Bool) (s : Components) (op : StoreOp)
    (h : ndebug = true ∨ op ≠ StoreOp.TryAddComponent nullptr) :
    ∃ r s', s.step ndebug op = some (r, s') := by
  cases op with
  | TryAddComponent p =>
    cases p with
    | none =>
      rcases h with h | h
      · subst h
        exact ⟨_, _, rfl⟩
      · exact absurd rfl h
    | some c =>
      simp only [Components.step, TryAddComponent_some, Option.map_some']
      exact ⟨_, _, rfl⟩
  | TryDeleteComponent k => exact ⟨_, _, rfl⟩
  | RemoveAllComponents => exact ⟨_, _, rfl⟩
  | operatorIndex k => exact ⟨_, _, rfl⟩

theorem step_keeps_find {ndebug : Bool} {s s' : Components} {op : StoreOp} {r : Result}
    {hash : Nat} {it : Nat × shared_ptr}
    (hfind : unordered_map.find s.m_components hash = some it)
    (hkeep : op.keeps hash = true)
    (hstep : s.step ndebug op = some (r, s')) :
    unordered_map.find s'.m_components hash = some it := by
  cases op with
  | TryAddComponent p =>
    cases p with
    | none =>
      have h0 := TryAddComponent_null ndebug s
      simp only [nullptr] at h0
      simp only [Components.step, h0] at hstep
      cases ndebug <;> simp at hstep
      rw [← hstep.2]; exact hfind
    | some c =>
      simp only [Components.step, TryAddComponent_some, Option.map_some', Option.some.injEq,
        Prod.mk.injEq] at hstep
      obtain ⟨-, rfl⟩ := hstep
      by_cases hk : s.hasKey c.GetHash = true
      · simpa [hk] using hfind
      · simp only [hk, Bool.false_eq_true, if_false]
        have hne : c.GetHash ≠ hash := by
          intro heq
          apply hk
          simp [hasKey, heq, hfind]
        rw [unordered_map.find_cons_ne _ _ _ _ hne]
        exact hfind
  | TryDeleteComponent k =>
    simp only [Components.step, Option.some.injEq, Prod.mk.injEq] at hstep
    obtain ⟨-, rfl⟩ := hstep
    have hne : k ≠ hash := by simpa [StoreOp.keeps] using hkeep
    simp only [Components.TryDeleteComponent, unordered_map.erase]
    rw [unordered_map.find_filter_ne _ _ _ hne]
    exact hfind
  | RemoveAllComponents =>
    simp [StoreOp.keeps] at hkeep
  | operatorIndex k =>
    simp only [Components.step, Option.some.injEq, Prod.mk.injEq] at hstep
    rw [← hstep.2]; exact hfind

theorem run_keeps_find {ndebug : Bool} {hash : Nat} {it : Nat × shared_ptr}
    (ops : List StoreOp) :
    ∀ {s s' : Components} {rs : List Result},
      unordered_map.find s.m_components hash = some it →
      (∀ op ∈ ops, op.keeps hash = true) →
      Components.run ndebug s ops = some (rs, s') →
      unordered_map.find s'.m_components hash = some it := by
  induction ops with
  | nil =>
    intro s s' rs hfind _ h
    simp only [Components.run, Option.some.injEq, Prod.mk.injEq] at h
    rw [← h.2]; exact hfind
  | cons op ops ih =>
    intro s s' rs hfind hkeep h
    simp only [Components.run, Option.bind_eq_some, Option.map_eq_some'] at h
    obtain ⟨⟨r, t⟩, hstep, ⟨rs1, t1⟩, hrun, heq⟩ := h
    simp only [Prod.mk.injEq] at heq
    obtain ⟨-, rfl⟩ := heq
    exact ih (step_keeps_find hfind (hkeep op (List.mem_cons_self _ _)) hstep)
      (fun o ho => hkeep o (List.mem_cons_of_mem _ ho)) hrun

theorem run_isSome (ndebug : Bool) (ops : List StoreOp) :
    ∀ (s : Components), (ndebug = true ∨ ∀ op ∈ ops, op ≠ StoreOp.TryAddComponent nullptr) →
      ∃ rs s', Components.run ndebug s ops = some (rs, s') := by
  induction ops with
  | nil =>
    intro s _
    exact ⟨_, _, rfl⟩
  | cons op ops ih =>
    intro s h
    have h1 : ndebug = true ∨ op ≠ StoreOp.TryAddComponent nullptr :=
      h.imp id (fun hh => hh op (List.mem_cons_self _ _))
    have h2 : ndebug = true ∨ ∀ o ∈ ops, o ≠ StoreOp.TryAddComponent nullptr :=
      h.imp id (fun hh o ho => hh o (List.mem_cons_of_mem _ ho))
    obtain ⟨r, t, hstep⟩ := step_isSome ndebug s op h1
    obtain ⟨rs, t1, hrun⟩ := ih t h2
    exact ⟨r :: rs, t1, by simp [Components.run, hstep, hrun]⟩

theorem operatorIndex_of_find {s : Components} {hash : Nat} {it : Nat × shared_ptr}
    (h : unordered_map.find s.m_components hash = some it) : s.operatorIndex hash = it.2 := by
  simp [operatorIndex, h]

theorem WF.countHash_le_one {s : Components} (hs : s.WF) (hash : Nat) :
    s.countHash hash ≤ 1 := by
  have h1 : s.countHash hash ≤ List.countP (fun e => e.1 == hash) s.m_components := by
    unfold countHash
    apply List.countP_mono_left
    intro e he hp
    obtain ⟨c, hc, hkey⟩ := hs.2 e he
    rw [hc] at hp
    simp only at hp
    rw [← hkey]
    exact hp
  have h2 : List.countP (fun e => e.1 == hash) s.m_components =
      List.count hash (s.m_components.map Prod.fst) := by
    rw [List.count, List.countP_map]
    rfl
  rw [h2] at h1
  exact h1.trans (List.nodup_iff_count_le_one.mp hs.1 hash)

end Components

/-! ## The contract of the store -/

theorem demoStore_reachable : demoStore.Reachable :=
  ⟨false, [StoreOp.TryAddComponent (some demoFirst)], [Result.bool true], rfl⟩

/-- C1: on every store, `TryAddComponent(c)` returns true exactly when `c` is
non-null and the store holds no component under `c.GetHash()`; a non-null `c`
always makes the call return; after a true result `operator[](c.GetHash())` is
`c`; after a false result the store is the one before the call. -/
theorem C1_TryAddComponent_contract (ndebug : Bool) (s : Components) (hs : s.Reachable)
    (component : shared_ptr) :
    ((∃ s', s.TryAddComponent ndebug component = some (true, s')) ↔
        ∃ c, component = some c ∧ s.operatorIndex c.GetHash = nullptr) ∧
    (∀ c, component = some c → ∃ b s', s.TryAddComponent ndebug component = some (b, s')) ∧
    (∀ c s', component = some c → s.TryAddComponent ndebug component = some (true, s') →
        s'.operatorIndex c.GetHash = some c) ∧
    (∀ s', s.TryAddComponent ndebug component = some (false, s') → s' = s) := by
  have hwf := hs.wf
  cases component with
  | none =>
    have h0 : s.TryAddComponent ndebug none = if ndebug then some (false, s) else none :=
      Components.TryAddComponent_null ndebug s
    refine ⟨⟨?_, ?_⟩, ?_, ?_, ?_⟩
    · rintro ⟨s', h⟩
      rw [h0] at h
      cases ndebug <;> simp at h
    · rintro ⟨c, hc, -⟩
      cases hc
    · intro c hc
      cases hc
    · intro c s' hc
      cases hc
    · intro s' h
      rw [h0] at h
      cases ndebug <;> simp at h
      exact h.symm
  | some c =>
    rw [Components.TryAddComponent_some]
    refine ⟨⟨?_, ?_⟩, ?_, ?_, ?_⟩
    · rintro ⟨s', h⟩
      simp only [Option.some.injEq, Prod.mk.injEq, Bool.not_eq_true'] at h
      exact ⟨c, rfl, (hwf.hasKey_iff _).mp h.1⟩
    · rintro ⟨c1, hc, hnull⟩
      cases hc
      have hk := (hwf.hasKey_iff _).mpr hnull
      exact ⟨{ m_components := (c.GetHash, some c) :: s.m_components }, by simp [hk]⟩
    · intro c1 _
      exact ⟨_, _, rfl⟩
    · intro c1 s' hc h
      cases hc
      simp only [Option.some.injEq, Prod.mk.injEq, Bool.not_eq_true'] at h
      obtain ⟨hk, rfl⟩ := h
      simp [hk, Components.operatorIndex, unordered_map.find_cons_self]
    · intro s' h
      simp only [Option.some.injEq, Prod.mk.injEq, Bool.not_eq_false'] at h
      obtain ⟨hk, rfl⟩ := h
      simp [hk]

/-- Instance of C1: adding `demoOther` (identifier 11) to the store that holds
`demoFirst` (identifier 10). -/
theorem C1_TryAddComponent_contract_witness :
    demoStore.Reachable ∧
    (((∃ s', demoStore.TryAddComponent false (some demoOther) = some (true, s')) ↔
        ∃ c, some demoOther = some c ∧ demoStore.operatorIndex c.GetHash = nullptr) ∧
    (∀ c, some demoOther = some c →
        ∃ b s', demoStore.TryAddComponent false (some demoOther) = some (b, s')) ∧
    (∀ c s', some demoOther = some c →
        demoStore.TryAddComponent false (some demoOther) = some (true, s') →
        s'.operatorIndex c.GetHash = some c) ∧
    (∀ s', demoStore.TryAddComponent false (some demoOther) = some (false, s') →
        s' = demoStore)) :=
  ⟨demoStore_reachable,
    C1_TryAddComponent_contract false demoStore demoStore_reachable (some demoOther)⟩

/-- C2: when `TryAddComponent(c)` has returned true, a following
`TryAddComponent(c')` for a non-null `c'` with the same identifier returns
false and leaves the store as it was, and `operator[]` of that identifier is
still `c`. -/
theorem C2_second_add_rejected (ndebug : Bool) (s s1 : Components) (c c' : Component)
    (hK : c'.GetHash = c.GetHash)
    (hadd : s.TryAddComponent ndebug (some c) = some (true, s1)) :
    s1.TryAddComponent ndebug (some c') = some (false, s1) ∧
      s1.operatorIndex c.GetHash = some c := by
  rw [Components.TryAddComponent_some] at hadd
  simp only [Option.some.injEq, Prod.mk.injEq, Bool.not_eq_true'] at hadd
  obtain ⟨hk, rfl⟩ := hadd
  simp only [hk, Bool.false_eq_true, if_false]
  have hkey : Components.hasKey { m_components := (c.GetHash, some c) :: s.m_components }
      c.GetHash = true := by
    simp [Components.hasKey, unordered_map.find_cons_self]
  refine ⟨?_, ?_⟩
  · rw [Components.TryAddComponent_some, hK, hkey]
    simp
  · simp [Components.operatorIndex, unordered_map.find_cons_self]

/-- Instance of C2: `demoSecond` is refused by the store that took `demoFirst`. -/
theorem C2_second_add_rejected_witness :
    demoSecond.GetHash = demoFirst.GetHash ∧
    Components.TryAddComponent false {} (some demoFirst) = some (true, demoStore) ∧
    demoStore.TryAddComponent false (some demoSecond) = some (false, demoStore) ∧
    demoStore.operatorIndex demoFirst.GetHash = some demoFirst :=
  ⟨rfl, rfl, C2_second_add_rejected false {} demoStore demoFirst demoSecond rfl rfl⟩

/-- C3, as stated, fails: in a build with assertions enabled,
`TryAddComponent(nullptr)` on the empty store aborts and returns nothing. -/
theorem C3_null_add_counterexample :
    Components.TryAddComponent false {} nullptr = none ∧
      Components.TryAddComponent false {} nullptr ≠ some (false, {}) := by
  constructor
  · rfl
  · intro h
    cases h

/-- C3, amended: on every store, `TryAddComponent(nullptr)` returns false and
leaves the store unchanged when `NDEBUG` is defined, and aborts at its `assert`
when it is not. -/
theorem C3_null_add_by_build (s : Components) :
    s.TryAddComponent true nullptr = some (false, s) ∧
      s.TryAddComponent false nullptr = none :=
  ⟨rfl, rfl⟩

/-- C4: once `TryAddComponent(c)` has returned true, after every finite
sequence of store calls without `TryDeleteComponent(c.GetHash())` and without
`RemoveAllComponents`, `operator[](c.GetHash())` is `c`: whenever the sequence
runs to its end, and it does so when no call in it adds a null pointer (or
`NDEBUG` is defined).  On a newly constructed store `operator[]` is null for
every identifier. -/
theorem C4_lookup_stable (ndebug : Bool) (s0 s : Components) (c : Component)
    (ops : List StoreOp)
    (hadd : s0.TryAddComponent ndebug (some c) = some (true, s))
    (hops : ∀ op ∈ ops, op.keeps c.GetHash = true) :
    (∀ rs s', Components.run ndebug s ops = some (rs, s') →
        s'.operatorIndex c.GetHash = some c) ∧
    ((ndebug = true ∨ ∀ op ∈ ops, op ≠ StoreOp.TryAddComponent nullptr) →
        ∃ rs s', Components.run ndebug s ops = some (rs, s') ∧
          s'.operatorIndex c.GetHash = some c) ∧
    (∀ K, Components.operatorIndex {} K = nullptr) := by
  rw [Components.TryAddComponent_some] at hadd
  simp only [Option.some.injEq, Prod.mk.injEq, Bool.not_eq_true'] at hadd
  obtain ⟨hk, rfl⟩ := hadd
  simp only [hk, Bool.false_eq_true, if_false] at *
  have hfind : unordered_map.find
      (Components.mk ((c.GetHash, some c) :: s0.m_components)).m_components c.GetHash =
        some (c.GetHash, some c) := unordered_map.find_cons_self _ _ _
  have hpart : ∀ rs s',
      Components.run ndebug { m_components := (c.GetHash, some c) :: s0.m_components } ops =
        some (rs, s') → s'.operatorIndex c.GetHash = some c := by
    intro rs s' hrun
    exact Components.operatorIndex_of_find (Components.run_keeps_find ops hfind hops hrun)
  refine ⟨hpart, ?_, ?_⟩
  · intro hnn
    obtain ⟨rs, s', hrun⟩ := Components.run_isSome ndebug ops _ hnn
    exact ⟨rs, s', hrun, hpart rs s' hrun⟩
  · intro K
    rfl

/-- Instance of C4: after `demoFirst` is added, a rejected add of `demoSecond`,
an add of `demoOther`, a delete of identifier 11 and a lookup leave
`operator[](10)` at `demoFirst`. -/
theorem C4_lookup_stable_witness :
    Components.TryAddComponent false {} (some demoFirst) = some (true, demoStore) ∧
    (∀ op ∈ [StoreOp.TryAddComponent (some demoSecond), StoreOp.TryAddComponent (some demoOther),
        StoreOp.TryDeleteComponent 11, StoreOp.operatorIndex 10],
        op.keeps demoFirst.GetHash = true) ∧
    (∃ rs s', Components.run false demoStore
        [StoreOp.TryAddComponent (some demoSecond), StoreOp.TryAddComponent (some demoOther),
          StoreOp.TryDeleteComponent 11, StoreOp.operatorIndex 10] = some (rs, s') ∧
        s'.operatorIndex demoFirst.GetHash = some demoFirst) :=
  ⟨rfl, by decide,
    (C4_lookup_stable false {} demoStore demoFirst _ rfl (by decide)).2.1
      (Or.inr (by decide))⟩

/-- C5: on every store, `TryDeleteComponent(K)` returns true exactly when the
store held a component under `K`; afterwards `operator[](K)` is null either
way; and after a false result the store is the one before the call. -/
theorem C5_TryDeleteComponent_contract (s : Components) (hs : s.Reachable) (K : Nat) :
    ((s.TryDeleteComponent K).1 = true ↔ s.operatorIndex K ≠ nullptr) ∧
    (s.TryDeleteComponent K).2.operatorIndex K = nullptr ∧
    ((s.TryDeleteComponent K).1 = false → (s.TryDeleteComponent K).2 = s) := by
  have hwf := hs.wf
  have hkey : (s.TryDeleteComponent K).1 = s.hasKey K := by
    simp only [Components.TryDeleteComponent, unordered_map.erase, Components.hasKey]
    rw [Bool.eq_iff_iff, decide_eq_true_iff, unordered_map.countP_pos_iff,
      Option.isSome_iff_ne_none]
  refine ⟨?_, ?_, ?_⟩
  · rw [hkey, ← not_iff_not, Bool.not_eq_true, hwf.hasKey_iff, not_not]
  · apply Components.operatorIndex_eq_nullptr_of_not_hasKey
    simp [Components.hasKey, Components.TryDeleteComponent, unordered_map.erase,
      unordered_map.find_filter_self]
  · intro hfalse
    rw [hkey] at hfalse
    have hnone : unordered_map.find s.m_components K = none := by
      simpa [Components.hasKey] using hfalse
    simp only [Components.TryDeleteComponent, unordered_map.erase]
    rw [unordered_map.filter_eq_self _ _ hnone]

/-- Instance of C5: deleting identifier 10 from the store that holds
`demoFirst`. -/
theorem C5_TryDeleteComponent_contract_witness :
    demoStore.Reachable ∧
    (((demoStore.TryDeleteComponent 10).1 = true ↔ demoStore.operatorIndex 10 ≠ nullptr) ∧
    (demoStore.TryDeleteComponent 10).2.operatorIndex 10 = nullptr ∧
    ((demoStore.TryDeleteComponent 10).1 = false →
        (demoStore.TryDeleteComponent 10).2 = demoStore)) :=
  ⟨demoStore_reachable, C5_TryDeleteComponent_contract demoStore demoStore_reachable 10⟩

/-- C6: of two consecutive `TryDeleteComponent(K)` calls the second returns
false and leaves the store as the first left it; and after a
`TryAddComponent(c)` that returned true, the first delete of `c.GetHash()`
returns true and the second false. -/
theorem C6_delete_twice (s : Components) (K : Nat) :
    (((s.TryDeleteComponent K).2.TryDeleteComponent K).1 = false ∧
      ((s.TryDeleteComponent K).2.TryDeleteComponent K).2 = (s.TryDeleteComponent K).2) ∧
    (∀ (ndebug : Bool) (c : Component) (s1 : Components),
      s.TryAddComponent ndebug (some c) = some (true, s1) →
        (s1.TryDeleteComponent c.GetHash).1 = true ∧
        ((s1.TryDeleteComponent c.GetHash).2.TryDeleteComponent c.GetHash).1 = false) := by
  have hsecond : ∀ (t : Components) (k : Nat),
      ((t.TryDeleteComponent k).2.TryDeleteComponent k).1 = false ∧
      ((t.TryDeleteComponent k).2.TryDeleteComponent k).2 = (t.TryDeleteComponent k).2 := by
    intro t k
    have hnone := unordered_map.find_filter_self t.m_components k
    constructor
    · simp only [Components.TryDeleteComponent, unordered_map.erase]
      rw [decide_eq_false_iff_not, unordered_map.countP_pos_iff]
      exact fun h => h hnone
    · simp only [Components.TryDeleteComponent, unordered_map.erase]
      rw [unordered_map.filter_eq_self _ _ hnone]
  refine ⟨hsecond s K, ?_⟩
  intro ndebug c s1 hadd
  refine ⟨?_, (hsecond s1 c.GetHash).1⟩
  rw [Components.TryAddComponent_some] at hadd
  simp only [Option.some.injEq, Prod.mk.injEq, Bool.not_eq_true'] at hadd
  obtain ⟨hk, rfl⟩ := hadd
  simp only [hk, Bool.false_eq_true, if_false]
  simp only [Components.TryDeleteComponent, unordered_map.erase]
  rw [decide_eq_true_iff, unordered_map.countP_pos_iff, unordered_map.find_cons_self]
  exact fun h => Option.noConfusion h

/-- Instance of C6: `demoFirst` is added to the empty store, then identifier 10
is deleted twice. -/
theorem C6_delete_twice_witness :
    Components.TryAddComponent false {} (some demoFirst) = some (true, demoStore) ∧
    (demoStore.TryDeleteComponent demoFirst.GetHash).1 = true ∧
    ((demoStore.TryDeleteComponent demoFirst.GetHash).2.TryDeleteComponent
      demoFirst.GetHash).1 = false :=
  ⟨rfl, (C6_delete_twice {} 10).2 false demoFirst demoStore rfl⟩

/-- C7: after `RemoveAllComponents()` the lookup `operator[](K)` is null for
every identifier `K`, and a second `RemoveAllComponents()` gives the same,
empty store. -/
theorem C7_RemoveAllComponents (s : Components) :
    (∀ K, s.RemoveAllComponents.operatorIndex K = nullptr) ∧
    s.RemoveAllComponents.RemoveAllComponents = s.RemoveAllComponents ∧
    s.RemoveAllComponents = {} :=
  ⟨fun _ => rfl, rfl, rfl⟩

/-- C8: in every store reachable from the newly constructed one, at most one
held component has a given identifier. -/
theorem C8_at_most_one_per_identifier (s : Components) (hs : s.Reachable) (K : Nat) :
    s.countHash K ≤ 1 :=
  hs.wf.countHash_le_one K

/-- Instance of C8: the store that holds `demoFirst`, identifier 10. -/
theorem C8_at_most_one_per_identifier_witness :
    demoStore.Reachable ∧ demoStore.countHash 10 ≤ 1 :=
  ⟨demoStore_reachable, C8_at_most_one_per_identifier demoStore demoStore_reachable 10⟩

theorem static_cast_uint32_eq (K : component_type_e) :
    static_cast_uint32 K = K.val.val ∧ K.val.val < 16 := by
  refine ⟨?_, K.val.isLt⟩
  unfold static_cast_uint32 component_type_e.toNat
  exact Nat.mod_eq_of_lt (lt_trans K.val.isLt (by norm_num))

theorem std_hash_cast_inj (std_hash : Nat → Nat)
    (hinj : ∀ a b : Nat, a < 16 → b < 16 → std_hash a = std_hash b → a = b)
    (K1 K2 : component_type_e) :
    std_hash (static_cast_uint32 K1) = std_hash (static_cast_uint32 K2) ↔ K1 = K2 := by
  constructor
  · intro h
    rw [(static_cast_uint32_eq K1).1, (static_cast_uint32_eq K2).1] at h
    have hv := hinj _ _ (static_cast_uint32_eq K1).2 (static_cast_uint32_eq K2).2 h
    cases K1 with
    | mk v1 =>
      cases K2 with
      | mk v2 =>
        have : v1 = v2 := Fin.ext hv
        rw [this]
  · intro h
    rw [h]

/-- C9: for all values `K1`, `K2` of `component_type_e`, the identifier that the
constructor of `Component` stores and the one that
`TransformComponent<Type>::GetHash` returns are equal for the two tags exactly
when `K1 = K2`: with the `std::hash<uint32_t>` of libstdc++ and libc++, the
identity, and with every `std::hash<uint32_t>` that sends different values of
the enumeration to different results. -/
theorem C9_identifier_injective (K1 K2 : component_type_e) (a1 a2 p1 p2 : Nat) :
    (((Component.ctor std_hash_identity a1 K1 p1).GetHash =
          (Component.ctor std_hash_identity a2 K2 p2).GetHash ↔ K1 = K2) ∧
      (TransformComponent.GetHash std_hash_identity K1 =
          TransformComponent.GetHash std_hash_identity K2 ↔ K1 = K2) ∧
      ((Component.ctor std_hash_identity a1 K1 p1).GetHash =
          TransformComponent.GetHash std_hash_identity K2 ↔ K1 = K2)) ∧
    ∀ std_hash : Nat → Nat,
      (∀ a b : Nat, a < 16 → b < 16 → std_hash a = std_hash b → a = b) →
      ((Component.ctor std_hash a1 K1 p1).GetHash =
          (Component.ctor std_hash a2 K2 p2).GetHash ↔ K1 = K2) ∧
      (TransformComponent.GetHash std_hash K1 = TransformComponent.GetHash std_hash K2 ↔
          K1 = K2) ∧
      ((Component.ctor std_hash a1 K1 p1).GetHash = TransformComponent.GetHash std_hash K2 ↔
          K1 = K2) := by
  have hid := std_hash_cast_inj std_hash_identity (fun _ _ _ _ h => h) K1 K2
  refine ⟨⟨hid, hid, hid⟩, ?_⟩
  intro std_hash hinj
  have hkey := std_hash_cast_inj std_hash hinj K1 K2
  exact ⟨hkey, hkey, hkey⟩

/-- Instance of C9: the tags `Transform` (10) and 11 have the identifiers 10
and 11 under the identity hash, which are different. -/
theorem C9_identifier_injective_witness :
    (TransformComponent.GetHash std_hash_identity component_type_e.Transform = 10 ∧
      TransformComponent.GetHash std_hash_identity demoTag = 11) ∧
    ((Component.ctor std_hash_identity 1 component_type_e.Transform 0).GetHash =
        (Component.ctor std_hash_identity 2 demoTag 0).GetHash ↔
      component_type_e.Transform = demoTag) ∧
    (∀ a b : Nat, a < 16 → b < 16 → std_hash_identity a = std_hash_identity b → a = b) ∧
    (TransformComponent.GetHash std_hash_identity component_type_e.Transform =
        TransformComponent.GetHash std_hash_identity demoTag ↔
      component_type_e.Transform = demoTag) :=
  ⟨⟨rfl, rfl⟩,
    (C9_identifier_injective component_type_e.Transform demoTag 1 2 0 0).1.1,
    fun _ _ _ _ h => h,
    ((C9_identifier_injective component_type_e.Transform demoTag 1 2 0 0).2
      std_hash_identity (fun _ _ _ _ h => h)).2.1⟩

/-- C10: a sequence of game-object calls run after `Destroy()` gives the same
results and the same final state (or the same abort) as on a newly
constructed game object. -/
theorem C10_destroy_like_fresh (ndebug : Bool) (e : GameObjectBase) (ops : List EntityOp) :
    GameObjectBase.run ndebug e.Destroy ops = GameObjectBase.run ndebug {} ops ∧
      e.Destroy = {} :=
  ⟨rfl, rfl⟩

/-! ## Lemmas on the game object -/

namespace GameObjectBase

theorem attach_some (ndebug : Bool) (e : GameObjectBase) (c : Component) :
    e.TryAddComponent ndebug (some c) =
      some (!e.m_components.hasKey c.GetHash,
        { m_components :=
            if e.m_components.hasKey c.GetHash then e.m_components
            else { m_components := (c.GetHash, some c) :: e.m_components.m_components } }) := by
  unfold TryAddComponent
  rw [Components.TryAddComponent_some]
  cases ndebug <;> rfl

theorem attach_null (ndebug : Bool) (e : GameObjectBase) :
    e.TryAddComponent ndebug nullptr = if ndebug then some (false, e) else none := by
  cases ndebug <;> rfl

end GameObjectBase

/-! ## The scenario of `main`, and the game object as a wrapper -/

/-- C11: on a newly constructed game object, for every transform component `T`
filed under the identifier of its kind (as the constructor files it), living
at its address among the transform objects of the program:
`TryAddComponent(T)` returns true; `TryGetComponent` of
`TransformComponent<Transform>::GetHash()` returns `T` itself, and the object
it points to has the position `T` was added with; `TryDeleteComponent` of the
identifier returns true, a second one false; and after `Destroy()` every
lookup is null. -/
theorem C11_main_scenario (ndebug : Bool) (std_hash : Nat → Nat) (T : TransformComponent)
    (heap : List TransformComponent)
    (hhash : T.toComponent.GetHash =
      TransformComponent.GetHash std_hash component_type_e.Transform)
    (hheap : List.find? (fun t => t.addr == T.addr) heap = some T) :
    ∃ E1 : GameObjectBase,
      GameObjectBase.TryAddComponent ndebug {} T.upcast = some (true, E1) ∧
      E1.TryGetComponent (TransformComponent.GetHash std_hash component_type_e.Transform) =
        T.upcast ∧
      static_pointer_cast heap
          (E1.TryGetComponent
            (TransformComponent.GetHash std_hash component_type_e.Transform)) = some T ∧
      (static_pointer_cast heap
          (E1.TryGetComponent
            (TransformComponent.GetHash std_hash component_type_e.Transform))).map
          TransformComponent.position = some T.m_position ∧
      (E1.TryDeleteComponent
          (TransformComponent.GetHash std_hash component_type_e.Transform)).1 = true ∧
      ((E1.TryDeleteComponent
          (TransformComponent.GetHash std_hash component_type_e.Transform)).2.TryDeleteComponent
          (TransformComponent.GetHash std_hash component_type_e.Transform)).1 = false ∧
      ∀ (e : GameObjectBase) (K : Nat), e.Destroy.TryGetComponent K = nullptr := by
  rw [← hhash]
  have hget : GameObjectBase.TryGetComponent
      { m_components := { m_components := [(T.toComponent.GetHash, some T.toComponent)] } }
      T.toComponent.GetHash = T.upcast := by
    simp [GameObjectBase.TryGetComponent, Components.operatorIndex,
      unordered_map.find_cons_self, TransformComponent.upcast]
  have hcast : static_pointer_cast heap T.upcast = some T := by
    simpa [static_pointer_cast, TransformComponent.upcast] using hheap
  refine ⟨{ m_components := { m_components :=
      [(T.toComponent.GetHash, some T.toComponent)] } }, ?_, hget, ?_, ?_, ?_, ?_,
    fun _ _ => rfl⟩
  · simp only [TransformComponent.upcast]
    rw [GameObjectBase.attach_some]
    rfl
  · rw [hget, hcast]
  · rw [hget, hcast]
    rfl
  · simp [GameObjectBase.TryDeleteComponent, Components.TryDeleteComponent,
      unordered_map.erase]
  · simp [GameObjectBase.TryDeleteComponent, Components.TryDeleteComponent,
      unordered_map.erase]

/-- Instance of C11: the transform `demoPlaced`, with position (1, 2, 3), on a
newly constructed game object; the position read back through
`TryGetComponent` is (1, 2, 3). -/
theorem C11_main_scenario_witness :
    demoPlaced.toComponent.GetHash =
      TransformComponent.GetHash std_hash_identity component_type_e.Transform ∧
    List.find? (fun t => t.addr == demoPlaced.addr) [demoPlaced] = some demoPlaced ∧
    ∃ E1 : GameObjectBase,
      GameObjectBase.TryAddComponent false {} demoPlaced.upcast = some (true, E1) ∧
      E1.TryGetComponent
          (TransformComponent.GetHash std_hash_identity component_type_e.Transform) =
        demoPlaced.upcast ∧
      static_pointer_cast [demoPlaced]
          (E1.TryGetComponent
            (TransformComponent.GetHash std_hash_identity component_type_e.Transform)) =
        some demoPlaced ∧
      (static_pointer_cast [demoPlaced]
          (E1.TryGetComponent
            (TransformComponent.GetHash std_hash_identity component_type_e.Transform))).map
          TransformComponent.position = some { m_x := 1, m_y := 2, m_z := 3 } ∧
      (E1.TryDeleteComponent
          (TransformComponent.GetHash std_hash_identity component_type_e.Transform)).1 = true ∧
      ((E1.TryDeleteComponent
          (TransformComponent.GetHash std_hash_identity
            component_type_e.Transform)).2.TryDeleteComponent
          (TransformComponent.GetHash std_hash_identity component_type_e.Transform)).1 = false ∧
      ∀ (e : GameObjectBase) (K : Nat), e.Destroy.TryGetComponent K = nullptr :=
  ⟨rfl, rfl, C11_main_scenario false std_hash_identity demoPlaced [demoPlaced] rfl rfl⟩

/-- C12, as stated, fails: in a build with assertions enabled,
`GameObjectBase::TryAddComponent(nullptr)` on a newly constructed game object
aborts and returns nothing. -/
theorem C12_null_attach_counterexample :
    GameObjectBase.TryAddComponent false {} nullptr = none ∧
      GameObjectBase.TryAddComponent false {} nullptr ≠ some (false, {}) := by
  constructor
  · rfl
  · intro h
    cases h

/-- C12, amended: on every game object, `TryAddComponent` of a component whose
identifier is already present returns false and leaves the object unchanged in
either build; `TryAddComponent(nullptr)` does so when `NDEBUG` is defined, and
aborts at the `assert` when it is not. -/
theorem C12_attach_failures_by_build (e : GameObjectBase) :
    (∀ (ndebug : Bool) (c : Component), e.m_components.hasKey c.GetHash = true →
        e.TryAddComponent ndebug (some c) = some (false, e)) ∧
    e.TryAddComponent true nullptr = some (false, e) ∧
    e.TryAddComponent false nullptr = none := by
  refine ⟨?_, rfl, rfl⟩
  intro ndebug c hk
  rw [GameObjectBase.attach_some, hk]
  simp

/-- Instance of C12: the game object that holds `demoFirst` refuses
`demoSecond`, which has the same identifier. -/
theorem C12_attach_failures_by_build_witness :
    Components.hasKey demoStore demoSecond.GetHash = true ∧
    GameObjectBase.TryAddComponent false { m_components := demoStore } (some demoSecond) =
      some (false, { m_components := demoStore }) :=
  ⟨rfl, (C12_attach_failures_by_build { m_components := demoStore }).1 false demoSecond rfl⟩

/-- C16: for a non-null component `c` and an identifier `K`, each member
function of the game object returns what the matching member function of its
store returns, and leaves the store in the state that one leaves it in. -/
theorem C16_facade (ndebug : Bool) (e : GameObjectBase) (c : Component) (K : Nat) :
    (∃ b s', e.m_components.TryAddComponent ndebug (some c) = some (b, s') ∧
        e.TryAddComponent ndebug (some c) = some (b, { m_components := s' })) ∧
    e.TryGetComponent K = e.m_components.operatorIndex K ∧
    (e.TryDeleteComponent K).1 = (e.m_components.TryDeleteComponent K).1 ∧
    (e.TryDeleteComponent K).2.m_components = (e.m_components.TryDeleteComponent K).2 ∧
    e.Destroy.m_components = e.m_components.RemoveAllComponents := by
  refine ⟨⟨_, _, Components.TryAddComponent_some ndebug e.m_components c, ?_⟩,
    rfl, rfl, rfl, rfl⟩
  rw [GameObjectBase.attach_some]

/-! ## Entries, frame and round trip -/

/-- C17: in every store reachable from the newly constructed one, every entry
of the map holds a non-null component whose `GetHash()` is the key of the
entry; hence what `operator[](K)` returns, when not null, has identifier `K`. -/
theorem C17_entries_filed_under_own_hash (s : Components) (hs : s.Reachable) :
    (∀ en ∈ s.m_components, ∃ c : Component, en.2 = some c ∧ c.GetHash = en.1) ∧
    (∀ (K : Nat) (c : Component), s.operatorIndex K = some c → c.GetHash = K) := by
  have hwf := hs.wf
  refine ⟨hwf.2, ?_⟩
  intro K c hget
  unfold Components.operatorIndex at hget
  cases hf : unordered_map.find s.m_components K with
  | none =>
    rw [hf] at hget
    cases hget
  | some it =>
    rw [hf] at hget
    obtain ⟨hkey, hmem⟩ := unordered_map.find_key _ _ _ hf
    obtain ⟨c1, hc1, hh⟩ := hwf.2 it hmem
    simp only at hget
    rw [hget] at hc1
    cases hc1
    rw [hh, hkey]

/-- Instance of C17: the store that holds `demoFirst` under 10. -/
theorem C17_entries_filed_under_own_hash_witness :
    demoStore.Reachable ∧
    ((∀ en ∈ demoStore.m_components, ∃ c : Component, en.2 = some c ∧ c.GetHash = en.1) ∧
    (∀ (K : Nat) (c : Component), demoStore.operatorIndex K = some c → c.GetHash = K)) :=
  ⟨demoStore_reachable, C17_entries_filed_under_own_hash demoStore demoStore_reachable⟩

/-- C18: `TryAddComponent(c)` returns and, whatever it returns, leaves
`operator[]` of every identifier other than `c.GetHash()` as it was; and
`TryDeleteComponent(K)` leaves `operator[]` of every identifier other than `K`
as it was. -/
theorem C18_frame (ndebug : Bool) (s : Components) (c : Component) (K K' : Nat) :
    (K' ≠ c.GetHash →
      ∃ b s', s.TryAddComponent ndebug (some c) = some (b, s') ∧
        s'.operatorIndex K' = s.operatorIndex K') ∧
    (K' ≠ K → (s.TryDeleteComponent K).2.operatorIndex K' = s.operatorIndex K') := by
  constructor
  · intro hne
    refine ⟨_, _, Components.TryAddComponent_some ndebug s c, ?_⟩
    by_cases hk : s.hasKey c.GetHash = true
    · simp [hk]
    · simp only [hk, Bool.false_eq_true, if_false]
      simp only [Components.operatorIndex]
      rw [unordered_map.find_cons_ne _ _ _ _ (Ne.symm hne)]
  · intro hne
    simp only [Components.operatorIndex, Components.TryDeleteComponent, unordered_map.erase]
    rw [unordered_map.find_filter_ne _ _ _ (Ne.symm hne)]

/-- Instance of C18: adding `demoOther` (identifier 11) to, and deleting
identifier 11 from, the store that holds `demoFirst` leaves `operator[](10)`. -/
theorem C18_frame_witness :
    (10 ≠ demoOther.GetHash ∧ (10 : Nat) ≠ 11) ∧
    (∃ b s', demoStore.TryAddComponent false (some demoOther) = some (b, s') ∧
        s'.operatorIndex 10 = demoStore.operatorIndex 10) ∧
    (demoStore.TryDeleteComponent 11).2.operatorIndex 10 = demoStore.operatorIndex 10 :=
  ⟨⟨by decide, by decide⟩,
    (C18_frame false demoStore demoOther 11 10).1 (by decide),
    (C18_frame false demoStore demoOther 11 10).2 (by decide)⟩

/-- C19: for every kind tag, the identifier that the constructor stores in a
`TransformComponent<Type>` is the one `TransformComponent<Type>::GetHash()`
returns; hence after `TryAddComponent` of the component has returned true,
`TryGetComponent` of that static identifier returns the component. -/
theorem C19_stored_hash_is_static_hash (std_hash : Nat → Nat) (type : component_type_e)
    (addr parent : Nat) :
    (TransformComponent.ctor std_hash addr type parent).toComponent.GetHash =
      TransformComponent.GetHash std_hash type ∧
    ∀ (ndebug : Bool) (e e1 : GameObjectBase),
      e.TryAddComponent ndebug (TransformComponent.ctor std_hash addr type parent).upcast =
          some (true, e1) →
        e1.TryGetComponent (TransformComponent.GetHash std_hash type) =
          (TransformComponent.ctor std_hash addr type parent).upcast := by
  refine ⟨rfl, ?_⟩
  intro ndebug e e1 hadd
  have hhash : (TransformComponent.ctor std_hash addr type parent).toComponent.GetHash =
      TransformComponent.GetHash std_hash type := rfl
  simp only [TransformComponent.upcast] at hadd ⊢
  rw [GameObjectBase.attach_some] at hadd
  simp only [Option.some.injEq, Prod.mk.injEq, Bool.not_eq_true'] at hadd
  obtain ⟨hk, rfl⟩ := hadd
  simp only [hk, Bool.false_eq_true, if_false]
  rw [← hhash]
  simp [GameObjectBase.TryGetComponent, Components.operatorIndex, unordered_map.find_cons_self]

/-- Instance of C19: a transform component of the kind tag 11, at address 5,
on a newly constructed game object; it is filed and found under 11. -/
theorem C19_stored_hash_is_static_hash_witness :
    GameObjectBase.TryAddComponent false {}
        (TransformComponent.ctor std_hash_identity 5 demoTag 0).upcast =
      some (true, { m_components := { m_components :=
        [(11, (TransformComponent.ctor std_hash_identity 5 demoTag 0).upcast)] } }) ∧
    TransformComponent.GetHash std_hash_identity demoTag = 11 ∧
    GameObjectBase.TryGetComponent
        { m_components := { m_components :=
          [(11, (TransformComponent.ctor std_hash_identity 5 demoTag 0).upcast)] } }
        (TransformComponent.GetHash std_hash_identity demoTag) =
      (TransformComponent.ctor std_hash_identity 5 demoTag 0).upcast :=
  ⟨rfl, rfl, (C19_stored_hash_is_static_hash std_hash_identity demoTag 5 0).2 false {} _ rfl⟩

/-- C20: when the store has no entry under the identifier of a non-null
component `c`, `TryAddComponent(c)` returns true, the following
`TryDeleteComponent(c.GetHash())` returns true, and the store is then the one
before the two calls. -/
theorem C20_add_delete_round_trip (ndebug : Bool) (s : Components) (c : Component)
    (h : s.hasKey c.GetHash = false) :
    ∃ s1, s.TryAddComponent ndebug (some c) = some (true, s1) ∧
      s1.TryDeleteComponent c.GetHash = (true, s) := by
  refine ⟨{ m_components := (c.GetHash, some c) :: s.m_components }, ?_, ?_⟩
  · rw [Components.TryAddComponent_some, h]
    simp
  · have hnone : unordered_map.find s.m_components c.GetHash = none := by
      simpa [Components.hasKey] using h
    simp only [Components.TryDeleteComponent, unordered_map.erase, Prod.mk.injEq]
    constructor
    · rw [decide_eq_true_iff, unordered_map.countP_pos_iff, unordered_map.find_cons_self]
      exact fun hh => Option.noConfusion hh
    · have hfil := unordered_map.filter_eq_self _ _ hnone
      simp [List.filter_cons, hfil]

/-- Instance of C20: `demoOther` (identifier 11) and the store that holds
`demoFirst`. -/
theorem C20_add_delete_round_trip_witness :
    demoStore.hasKey demoOther.GetHash = false ∧
    ∃ s1, demoStore.TryAddComponent false (some demoOther) = some (true, s1) ∧
      s1.TryDeleteComponent demoOther.GetHash = (true, demoStore) :=
  ⟨rfl, C20_add_delete_round_trip false demoStore demoOther rfl⟩

/-! ## Lemmas on several game objects -/

theorem Components.step_mem {ndebug : Bool} {s s' : Components} {op : StoreOp} {r : Result}
    {en : Nat × shared_ptr} (h : s.step ndebug op = some (r, s'))
    (hmem : en ∈ s'.m_components) :
    en ∈ s.m_components ∨
      ∃ c : Component, op = StoreOp.TryAddComponent (some c) ∧ en = (c.GetHash, some c) := by
  cases op with
  | TryAddComponent p =>
    cases p with
    | none =>
      have h0 := Components.TryAddComponent_null ndebug s
      simp only [nullptr] at h0
      simp only [Components.step, h0] at h
      cases ndebug <;> simp at h
      rw [← h.2] at hmem
      exact Or.inl hmem
    | some c =>
      simp only [Components.step, Components.TryAddComponent_some, Option.map_some',
        Option.some.injEq, Prod.mk.injEq] at h
      obtain ⟨-, rfl⟩ := h
      by_cases hk : s.hasKey c.GetHash = true
      · simp only [hk, if_true] at hmem
        exact Or.inl hmem
      · simp only [hk, Bool.false_eq_true, if_false] at hmem
        rcases List.mem_cons.mp hmem with rfl | hm
        · exact Or.inr ⟨c, rfl, rfl⟩
        · exact Or.inl hm
  | TryDeleteComponent k =>
    simp only [Components.step, Option.some.injEq, Prod.mk.injEq] at h
    rw [← h.2] at hmem
    exact Or.inl (List.mem_filter.mp hmem).1
  | RemoveAllComponents =>
    simp only [Components.step, Option.some.injEq, Prod.mk.injEq] at h
    rw [← h.2] at hmem
    simp [Components.RemoveAllComponents, unordered_map.clear] at hmem
  | operatorIndex k =>
    simp only [Components.step, Option.some.injEq, Prod.mk.injEq] at h
    rw [← h.2] at hmem
    exact Or.inl hmem

theorem GameObjectBase.step_store {ndebug : Bool} {e e' : GameObjectBase} {op : EntityOp}
    {r : Result} (h : e.step ndebug op = some (r, e')) :
    e.m_components.step ndebug op.toStoreOp = some (r, e'.m_components) := by
  cases op with
  | TryAddComponent p =>
    cases p with
    | none =>
      have h0 := GameObjectBase.attach_null ndebug e
      have h1 := Components.TryAddComponent_null ndebug e.m_components
      simp only [nullptr] at h0 h1
      simp only [GameObjectBase.step, h0] at h
      simp only [EntityOp.toStoreOp, Components.step, h1]
      cases ndebug <;> simp at h ⊢
      obtain ⟨h2, h3⟩ := h
      exact ⟨h2, by rw [← h3]⟩
    | some c =>
      simp only [GameObjectBase.step, GameObjectBase.attach_some, Option.map_some',
        Option.some.injEq, Prod.mk.injEq] at h
      obtain ⟨hr, rfl⟩ := h
      simp only [EntityOp.toStoreOp, Components.step, Components.TryAddComponent_some,
        Option.map_some', hr]
  | TryGetComponent k =>
    simp only [GameObjectBase.step, Option.some.injEq, Prod.mk.injEq] at h
    obtain ⟨hr, rfl⟩ := h
    rw [← hr]
    rfl
  | TryDeleteComponent k =>
    simp only [GameObjectBase.step, Option.some.injEq, Prod.mk.injEq] at h
    obtain ⟨hr, rfl⟩ := h
    rw [← hr]
    rfl
  | Destroy =>
    simp only [GameObjectBase.step, Option.some.injEq, Prod.mk.injEq] at h
    obtain ⟨hr, rfl⟩ := h
    rw [← hr]
    rfl

theorem GameObjectBase.run_wf {ndebug : Bool} (ops : List EntityOp) :
    ∀ {e e' : GameObjectBase} {rs : List Result}, e.m_components.WF →
      GameObjectBase.run ndebug e ops = some (rs, e') → e'.m_components.WF := by
  induction ops with
  | nil =>
    intro e e' rs he h
    simp only [GameObjectBase.run, Option.some.injEq, Prod.mk.injEq] at h
    rw [← h.2]; exact he
  | cons op ops ih =>
    intro e e' rs he h
    simp only [GameObjectBase.run, Option.bind_eq_some, Option.map_eq_some'] at h
    obtain ⟨⟨r, t⟩, hstep, ⟨rs1, t1⟩, hrun, heq⟩ := h
    simp only [Prod.mk.injEq] at heq
    obtain ⟨-, rfl⟩ := heq
    exact ih (he.step (GameObjectBase.step_store hstep)) hrun

theorem GameObjectBase.Reachable.entity_wf {e : GameObjectBase} (h : e.Reachable) :
    e.m_components.WF := by
  obtain ⟨ndebug, ops, rs, hrun⟩ := h
  exact GameObjectBase.run_wf ops Components.WF.empty hrun

theorem World.step_eq {ndebug : Bool} {w w' : World} {o : WorldOp} {r : Result}
    (h : w.step ndebug o = some (r, w')) :
    ∃ e', (w o.entity).step ndebug o.op = some (r, e') ∧
      w' = fun E => if E = o.entity then e' else w E := by
  simp only [World.step, Option.map_eq_some'] at h
  obtain ⟨⟨r1, e1⟩, hstep, heq⟩ := h
  simp only [Prod.mk.injEq] at heq
  obtain ⟨rfl, rfl⟩ := heq
  exact ⟨e1, hstep, rfl⟩

theorem World.run_invariant {ndebug : Bool} (P : World → Prop) (Q : WorldOp → Prop)
    (hstep : ∀ (w w' : World) (o : WorldOp) (r : Result), P w → Q o →
      w.step ndebug o = some (r, w') → P w')
    (ops : List WorldOp) :
    ∀ {w w' : World} {rs : List Result}, P w → (∀ o ∈ ops, Q o) →
      World.run ndebug w ops = some (rs, w') → P w' := by
  induction ops with
  | nil =>
    intro w w' rs hw _ h
    simp only [World.run, Option.some.injEq, Prod.mk.injEq] at h
    rw [← h.2]; exact hw
  | cons o os ih =>
    intro w w' rs hw hq h
    simp only [World.run, Option.bind_eq_some, Option.map_eq_some'] at h
    obtain ⟨⟨r, t⟩, hst, ⟨rs1, t1⟩, hrun, heq⟩ := h
    simp only [Prod.mk.injEq] at heq
    obtain ⟨-, rfl⟩ := heq
    exact ih (hstep w t o r hw (hq o (List.mem_cons_self _ _)) hst)
      (fun o1 ho1 => hq o1 (List.mem_cons_of_mem _ ho1)) hrun

theorem World.Reachable.world_wf {w : World} (h : w.Reachable) (E : Nat) :
    (w E).m_components.WF := by
  obtain ⟨ndebug, ops, rs, hrun⟩ := h
  have hinv := World.run_invariant (fun v => ∀ E, (v E).m_components.WF) (fun _ => True)
    (by
      intro v v' o r hv _ hst E
      obtain ⟨e', hstep, rfl⟩ := World.step_eq hst
      by_cases hE : E = o.entity
      · simp only [hE, if_true]
        exact (hv o.entity).step (GameObjectBase.step_store hstep)
      · simp only [hE, if_false]
        exact hv E)
    ops (fun _ => Components.WF.empty) (fun _ _ => trivial) hrun
  exact hinv E

theorem GameObjectBase.holds_iff (e : GameObjectBase) (c : Component) :
    e.holds c = true ↔ ∃ en ∈ e.m_components.m_components, en.2 = some c := by
  simp [GameObjectBase.holds, List.any_eq_true]

theorem Components.WF.operatorIndex_hash {s : Components} (hs : s.WF) {K : Nat}
    {c : Component} (hget : s.operatorIndex K = some c) :
    c.GetHash = K ∧ (K, some c) ∈ s.m_components := by
  unfold Components.operatorIndex at hget
  cases hf : unordered_map.find s.m_components K with
  | none =>
    rw [hf] at hget
    cases hget
  | some it =>
    rw [hf] at hget
    obtain ⟨hkey, hmem⟩ := unordered_map.find_key _ _ _ hf
    obtain ⟨c1, hc1, hh⟩ := hs.2 it hmem
    simp only at hget
    rw [hget] at hc1
    cases hc1
    refine ⟨by rw [hh, hkey], ?_⟩
    have : it = (K, some c) := Prod.ext hkey hget
    rw [← this]; exact hmem

theorem Components.WF.countHeld_le_one {e : GameObjectBase} (he : e.m_components.WF)
    (c : Component) : e.countHeld c ≤ 1 := by
  refine le_trans ?_ (he.countHash_le_one c.GetHash)
  unfold GameObjectBase.countHeld Components.countHash
  apply List.countP_mono_left
  intro en _ hp
  have : en.2 = some c := by simpa using hp
  rw [this]
  simp

/-- C13, as stated, fails: `demoFirst` was constructed for the game object 0;
`TryAddComponent` on the game object 1 returns true, and the store of 1 then
holds a component whose `GetParent()` is not 1. -/
theorem C13_foreign_parent_counterexample :
    (World.run false World.fresh
        [{ entity := 1, op := EntityOp.TryAddComponent (some demoFirst) }]).map
      (fun r => (r.1, (r.2 1).TryGetComponent 10)) =
        some ([Result.bool true], some demoFirst) ∧
    demoFirst.GetParent = 0 ∧ demoFirst.GetParent ≠ 1 := by
  refine ⟨rfl, rfl, ?_⟩
  decide

/-- C13, amended: in a program state reached by calls that pass to
`TryAddComponent` on a game object only components constructed with that game
object as parent, every component held in the store of a game object `E` has
`GetParent()` equal to `E`. -/
theorem C13_parent_of_held (ndebug : Bool) (ops : List WorldOp) (rs : List Result)
    (w : World) (hrun : World.run ndebug World.fresh ops = some (rs, w))
    (hown : ∀ o ∈ ops, o.ownParent = true) (E : Nat) (c : Component)
    (hheld : (w E).holds c = true) : c.GetParent = E := by
  have hinv := World.run_invariant
    (fun v => ∀ E c, (v E).holds c = true → c.GetParent = E)
    (fun o => o.ownParent = true)
    (by
      intro v v' o r hv ho hst E1 c1 hh
      obtain ⟨e', hstep, rfl⟩ := World.step_eq hst
      by_cases hE : E1 = o.entity
      · simp only [hE, if_true] at hh
        obtain ⟨en, hmem, hen⟩ := (GameObjectBase.holds_iff _ _).mp hh
        rcases Components.step_mem (GameObjectBase.step_store hstep) hmem with hold | hnew
        · rw [hE]
          exact hv o.entity c1 ((GameObjectBase.holds_iff _ _).mpr ⟨en, hold, hen⟩)
        · obtain ⟨c2, hop, rfl⟩ := hnew
          simp only [Option.some.injEq] at hen
          subst hen
          have hop1 : o.op = EntityOp.TryAddComponent (some c2) := by
            cases hoo : o.op <;> rw [hoo] at hop <;> simp [EntityOp.toStoreOp] at hop
            rw [hop]
          simp only [WorldOp.ownParent, hop1, beq_iff_eq] at ho
          rw [hE]; exact ho
      · simp only [hE, if_false] at hh
        exact hv E1 c1 hh)
    ops
    (by
      intro E1 c1 hh
      simp [World.fresh, GameObjectBase.holds] at hh)
    hown hrun
  exact hinv E c hheld

/-- Instance of C13: `demoFirst`, constructed for the game object 0, is added
to the game object 0. -/
theorem C13_parent_of_held_witness :
    World.run false World.fresh
        [{ entity := 0, op := EntityOp.TryAddComponent (some demoFirst) }] =
      some ([Result.bool true],
        fun E => if E = 0 then { m_components := demoStore } else World.fresh E) ∧
    (∀ o ∈ [({ entity := 0, op := EntityOp.TryAddComponent (some demoFirst) } : WorldOp)],
        o.ownParent = true) ∧
    GameObjectBase.holds { m_components := demoStore } demoFirst = true ∧
    demoFirst.GetParent = 0 :=
  ⟨rfl, by decide, rfl,
    C13_parent_of_held false
      [{ entity := 0, op := EntityOp.TryAddComponent (some demoFirst) }] [Result.bool true]
      (fun E => if E = 0 then { m_components := demoStore } else World.fresh E)
      rfl (by decide) 0 demoFirst rfl⟩

theorem GameObjectBase.countHeld_delete {e : GameObjectBase} (he : e.m_components.WF)
    {K : Nat} {c : Component} (hget : e.TryGetComponent K = some c) :
    (e.TryDeleteComponent K).2.countHeld c = 0 := by
  obtain ⟨hhash, -⟩ := he.operatorIndex_hash hget
  unfold GameObjectBase.countHeld
  rw [List.countP_eq_zero]
  intro en hmem hp
  have hval : en.2 = some c := by simpa using hp
  obtain ⟨hin, hkey⟩ := List.mem_filter.mp hmem
  obtain ⟨c1, hc1, hh⟩ := he.2 en hin
  rw [hval] at hc1
  cases hc1
  rw [← hh, hhash] at hkey
  simp at hkey

theorem GameObjectBase.TryDeleteComponent_of_get {e : GameObjectBase} {K : Nat}
    {c : Component} (hget : e.TryGetComponent K = some c) :
    (e.TryDeleteComponent K).1 = true := by
  simp only [GameObjectBase.TryDeleteComponent, Components.TryDeleteComponent,
    unordered_map.erase]
  rw [decide_eq_true_iff, unordered_map.countP_pos_iff]
  intro hnone
  simp [GameObjectBase.TryGetComponent, Components.operatorIndex, hnone, nullptr] at hget

/-- C15, as stated, fails: in `main` the variable `transformComponent` still
points to the component that was added; after `TryGetComponent` has returned
it, a `TryDeleteComponent` that returns true, or `Destroy()`, leaves a weak
reference to it not expired, and `lock()` on it gives the component. -/
theorem C15_reference_outlives_removal_counterexample :
    GameObjectBase.TryAddComponent false {} demoTransform.upcast =
      some (true, { m_components := { m_components := [(10, demoTransform.upcast)] } }) ∧
    GameObjectBase.TryGetComponent
      { m_components := { m_components := [(10, demoTransform.upcast)] } } 10 =
        some demoTransform.toComponent ∧
    (GameObjectBase.TryDeleteComponent
      { m_components := { m_components := [(10, demoTransform.upcast)] } } 10).1 = true ∧
    weak_ptr_expired [demoTransform.upcast]
      (GameObjectBase.TryDeleteComponent
        { m_components := { m_components := [(10, demoTransform.upcast)] } } 10).2
      demoTransform.toComponent = false ∧
    weak_ptr_lock [demoTransform.upcast]
      (GameObjectBase.TryDeleteComponent
        { m_components := { m_components := [(10, demoTransform.upcast)] } } 10).2
      demoTransform.toComponent = some demoTransform.toComponent ∧
    weak_ptr_expired [demoTransform.upcast]
      (GameObjectBase.Destroy
        { m_components := { m_components := [(10, demoTransform.upcast)] } })
      demoTransform.toComponent = false := by
  decide

/-- C15, amended: when `TryGetComponent(K)` has returned the component `c` of
a reachable game object, `TryDeleteComponent(K)` returns true and removes it,
and after it, or after `Destroy()`, a weak reference to `c` is expired exactly
when no `shared_ptr` outside the store points to `c`; while one does, `lock()`
still gives `c`. -/
theorem C15_expired_iff_no_outside_owner (outside : List shared_ptr) (e : GameObjectBase)
    (he : e.Reachable) (K : Nat) (c : Component) (hget : e.TryGetComponent K = some c) :
    (e.TryDeleteComponent K).1 = true ∧
    (e.TryDeleteComponent K).2.TryGetComponent K = nullptr ∧
    (weak_ptr_expired outside (e.TryDeleteComponent K).2 c = true ↔ some c ∉ outside) ∧
    (weak_ptr_expired outside e.Destroy c = true ↔ some c ∉ outside) ∧
    (some c ∈ outside →
      weak_ptr_lock outside (e.TryDeleteComponent K).2 c = some c ∧
      weak_ptr_lock outside e.Destroy c = some c) := by
  have h0 := GameObjectBase.countHeld_delete he.entity_wf hget
  have h1 : e.Destroy.countHeld c = 0 := rfl
  have hexp1 : weak_ptr_expired outside (e.TryDeleteComponent K).2 c = true ↔
      some c ∉ outside := by
    simp only [weak_ptr_expired, use_count, h0, Nat.add_zero, beq_iff_eq]
    exact List.count_eq_zero
  have hexp2 : weak_ptr_expired outside e.Destroy c = true ↔ some c ∉ outside := by
    simp only [weak_ptr_expired, use_count, h1, Nat.add_zero, beq_iff_eq]
    exact List.count_eq_zero
  refine ⟨GameObjectBase.TryDeleteComponent_of_get hget, ?_, hexp1, hexp2, ?_⟩
  · apply Components.operatorIndex_eq_nullptr_of_not_hasKey
    simp [Components.hasKey, GameObjectBase.TryDeleteComponent, Components.TryDeleteComponent,
      unordered_map.erase, unordered_map.find_filter_self]
  · intro hmem
    have hn1 : weak_ptr_expired outside (e.TryDeleteComponent K).2 c = false := by
      rw [← Bool.not_eq_true, hexp1]
      exact fun hh => hh hmem
    have hn2 : weak_ptr_expired outside e.Destroy c = false := by
      rw [← Bool.not_eq_true, hexp2]
      exact fun hh => hh hmem
    simp [weak_ptr_lock, hn1, hn2]

/-- Instance of C15: the game object that holds `demoFirst`, and no
`shared_ptr` to it anywhere else. -/
theorem C15_expired_iff_no_outside_owner_witness :
    GameObjectBase.Reachable { m_components := demoStore } ∧
    GameObjectBase.TryGetComponent { m_components := demoStore } 10 = some demoFirst ∧
    (weak_ptr_expired []
      (GameObjectBase.TryDeleteComponent { m_components := demoStore } 10).2 demoFirst = true ↔
        some demoFirst ∉ ([] : List shared_ptr)) :=
  ⟨⟨false, [EntityOp.TryAddComponent (some demoFirst)], [Result.bool true], rfl⟩, rfl,
    (C15_expired_iff_no_outside_owner [] { m_components := demoStore }
      ⟨false, [EntityOp.TryAddComponent (some demoFirst)], [Result.bool true], rfl⟩
      10 demoFirst rfl).2.2.1⟩

end Architecture
